import Mathlib

/-!
Shallow embedding of the video-blapper encode queue manager and the
media-inspection crop detection, translated from:
  * `server/src/encodeManager.ts` (class `EncodeManager`)
  * `server/src/routes/api.ts` (`detectCrop`, `router.post('/encode')`)
Machine numbers are `Nat`/`Int`; JavaScript strings are `String`;
the event-driven callbacks (`on 'close'`, `on 'data'`) become explicit
step functions on the manager state.
-/

namespace VideoBlapper

/-- Job status, from the `status` union type of `EncodeJob` in
`encodeManager.ts`: `'pending' | 'processing' | 'completed' | 'failed' | 'cancelled'`. -/
inductive Status where
  | pending
  | processing
  | completed
  | failed
  | cancelled
deriving DecidableEq, Repr

/-- The fields of the `EncodeJob` record that the queue logic reads or
writes (`id`, `filePath`, `audioStreams`, `status`, `progress`, `error`);
the remaining fields (codec parameters, output path, sizes) are opaque
payload never consulted by the queue-state transitions. -/
structure EncodeJob where
  id : String
  filePath : String
  audioStreams : List Int
  status : Status
  progress : Nat
  error : Option String
deriving DecidableEq, Repr

/-- The mutable state of the `EncodeManager` singleton: the pending
`queue`, the `currentJob` slot.  `currentProcess` is set and cleared
together with `currentJob` (spawn happens synchronously inside
`processQueue`, and the close handler nulls both), so occupancy of
`currentJob` stands for both.  `finished` is a history of the job records
at the moment the close handler released them (newest first); the source
drops these references, but the records' final fields are what the
close-handler claims are about. -/
structure ManagerState where
  queue : List EncodeJob
  currentJob : Option EncodeJob
  finished : List EncodeJob
deriving DecidableEq, Repr

def initState : ManagerState := { queue := [], currentJob := none, finished := [] }

/-- The job literal built in `addJob`: `id: Date.now().toString()`,
`status: 'pending'`, `progress: 0`; `t` is the value of `Date.now()` at
admission time. -/
def mkJob (t : Nat) (filePath : String) (audioStreams : List Int) : EncodeJob :=
  { id := toString t
    filePath := filePath
    audioStreams := audioStreams
    status := .pending
    progress := 0
    error := none }

/-- `processQueue` up to its first suspension: returns unchanged when a
job is already running or the queue is empty; otherwise shifts the head
of the queue into the current slot and marks it `processing`. -/
def processQueue (s : ManagerState) : ManagerState :=
  match s.currentJob, s.queue with
  | some _, _ => s
  | none, [] => s
  | none, j :: rest =>
      { queue := rest
        currentJob := some { j with status := .processing }
        finished := s.finished }

/-- `addJob`: builds the job, pushes it on the tail of the queue, calls
`processQueue`, and returns the created job. -/
def addJob (s : ManagerState) (t : Nat) (filePath : String) (audioStreams : List Int) :
    EncodeJob × ManagerState :=
  let job := mkJob t filePath audioStreams
  (job, processQueue { s with queue := s.queue ++ [job] })

/-- The error message written by the close handler on a non-zero exit
code: `` `ffmpeg exited with code ${code}. See logs for details.` ``. -/
def exitErrorMessage (code : Int) : String :=
  "ffmpeg exited with code " ++ toString code ++ ". See logs for details."

/-- The body of the `'close'` handler that touches the job record: only
when `job.status === 'processing'` does it write `completed`/`failed`;
otherwise the record is left as is. -/
def applyExit (j : EncodeJob) (code : Int) : EncodeJob :=
  if j.status = .processing then
    if code = 0 then
      { j with status := .completed, progress := 100 }
    else
      { j with status := .failed, error := some (exitErrorMessage code) }
  else j

/-- The `'close'` handler as a state transition: mutate the captured job
per `applyExit`, null out `currentJob`/`currentProcess`, and call
`processQueue` again.  The handler only ever fires for the process of the
job occupying the slot. -/
def closeHandler (s : ManagerState) (code : Int) : ManagerState :=
  match s.currentJob with
  | none => s
  | some j =>
      processQueue
        { queue := s.queue
          currentJob := none
          finished := applyExit j code :: s.finished }

/-- `cancelJob`: if the id names the running job, set its status to
`cancelled` (the process kill is asynchronous and surfaces later as a
`'close'` event); otherwise filter the id out of the pending queue. -/
def cancelJob (s : ManagerState) (jobId : String) : ManagerState :=
  match s.currentJob with
  | some j =>
      if j.id = jobId then
        { s with currentJob := some { j with status := .cancelled } }
      else
        { s with queue := s.queue.filter (fun q => q.id != jobId) }
  | none => { s with queue := s.queue.filter (fun q => q.id != jobId) }

/-- The externally triggered queue operations: admission (`t` is the
`Date.now()` reading), process exit, and cancellation.  `processQueue`
itself is only invoked from these. -/
inductive QOp where
  | add (t : Nat) (filePath : String) (audioStreams : List Int)
  | close (code : Int)
  | cancel (jobId : String)

/-- One externally triggered transition of the manager. -/
def step (s : ManagerState) : QOp → ManagerState
  | .add t fp streams => (addJob s t fp streams).2
  | .close code => closeHandler s code
  | .cancel jobId => cancelJob s jobId

/-- A whole history of queue operations applied in order. -/
def run (s : ManagerState) (ops : List QOp) : ManagerState :=
  ops.foldl step s

/-- Number of job records with status `processing` anywhere in the
manager state (pending queue, current slot, released records). -/
def processingCount (s : ManagerState) : Nat :=
  (s.queue.filter (fun j => j.status == Status.processing)).length
    + (match s.currentJob with
       | some j => if j.status = Status.processing then 1 else 0
       | none => 0)
    + (s.finished.filter (fun j => j.status == Status.processing)).length

/-- Structural invariant of the manager: queued jobs are `pending`, the
current slot holds a `processing` or (after a cancellation request)
`cancelled` job, and released records are never `processing`. -/
def Inv (s : ManagerState) : Prop :=
  (∀ j ∈ s.queue, j.status = .pending)
    ∧ (∀ j, s.currentJob = some j → j.status = .processing ∨ j.status = .cancelled)
    ∧ (∀ j ∈ s.finished, j.status ≠ .processing)

lemma inv_initState : Inv initState := by
  refine ⟨?_, ?_, ?_⟩ <;> simp [initState]

lemma inv_processQueue {s : ManagerState} (h : Inv s) : Inv (processQueue s) := by
  obtain ⟨hq, hc, hf⟩ := h
  unfold processQueue
  cases hcur : s.currentJob with
  | some j => exact ⟨hq, hc, hf⟩
  | none =>
      cases hqs : s.queue with
      | nil => exact ⟨hq, hc, hf⟩
      | cons j rest =>
          refine ⟨?_, ?_, hf⟩
          · intro k hk
            exact hq k (by simp [hqs, hk])
          · intro k hk
            simp only [Option.some.injEq] at hk
            left
            simp [← hk]

lemma inv_addJob {s : ManagerState} (h : Inv s) (t : Nat) (fp : String)
    (streams : List Int) : Inv (addJob s t fp streams).2 := by
  obtain ⟨hq, hc, hf⟩ := h
  refine inv_processQueue ⟨?_, hc, hf⟩
  intro j hj
  rcases List.mem_append.mp hj with hj | hj
  · exact hq j hj
  · simp only [List.mem_singleton] at hj
    simp [hj, mkJob]

lemma applyExit_not_processing {j : EncodeJob} (code : Int)
    (h : j.status = .processing ∨ j.status = .cancelled) :
    (applyExit j code).status ≠ .processing := by
  unfold applyExit
  rcases h with h | h
  · simp only [h, if_pos rfl]
    by_cases hc : code = 0 <;> simp [hc]
  · simp [h]

lemma inv_closeHandler {s : ManagerState} (h : Inv s) (code : Int) :
    Inv (closeHandler s code) := by
  obtain ⟨hq, hc, hf⟩ := h
  unfold closeHandler
  cases hcur : s.currentJob with
  | none => exact ⟨hq, hc, hf⟩
  | some j =>
      refine inv_processQueue ⟨hq, by simp, ?_⟩
      intro k hk
      simp only [List.mem_cons] at hk
      rcases hk with hk | hk
      · rw [hk]
        exact applyExit_not_processing code (hc j hcur)
      · exact hf k hk

lemma inv_cancelJob {s : ManagerState} (h : Inv s) (jobId : String) :
    Inv (cancelJob s jobId) := by
  obtain ⟨hq, hc, hf⟩ := h
  unfold cancelJob
  cases hcur : s.currentJob with
  | none =>
      refine ⟨?_, ?_, hf⟩
      · intro j hj
        exact hq j (List.mem_of_mem_filter hj)
      · intro j hj
        simp at hj
  | some j =>
      by_cases hid : j.id = jobId
      · simp only [if_pos hid]
        refine ⟨hq, ?_, hf⟩
        intro k hk
        simp only [Option.some.injEq] at hk
        right
        simp [← hk]
      · simp only [if_neg hid]
        refine ⟨?_, ?_, hf⟩
        · intro k hk
          exact hq k (List.mem_of_mem_filter hk)
        · intro k hk
          simp only [Option.some.injEq] at hk
          exact hc k (by rw [hcur, hk])

lemma inv_step {s : ManagerState} (h : Inv s) (op : QOp) : Inv (step s op) := by
  cases op with
  | add t fp streams => exact inv_addJob h t fp streams
  | close code => exact inv_closeHandler h code
  | cancel jobId => exact inv_cancelJob h jobId

lemma inv_run {s : ManagerState} (h : Inv s) (ops : List QOp) : Inv (run s ops) := by
  induction ops generalizing s with
  | nil => exact h
  | cons op rest ih => exact ih (inv_step h op)

lemma filter_processing_nil {l : List EncodeJob}
    (h : ∀ j ∈ l, j.status ≠ Status.processing) :
    l.filter (fun j => j.status == Status.processing) = [] := by
  induction l with
  | nil => rfl
  | cons j rest ih =>
      have hj : (j.status == Status.processing) = false := by
        simpa using h j (by simp)
      simp only [List.filter_cons, hj, Bool.false_eq_true, if_false]
      exact ih fun k hk => h k (by simp [hk])

lemma processingCount_le_one {s : ManagerState} (h : Inv s) :
    processingCount s ≤ 1 := by
  obtain ⟨hq, hc, hf⟩ := h
  unfold processingCount
  rw [filter_processing_nil (fun j hj => by simp [hq j hj]),
    filter_processing_nil hf]
  cases hcur : s.currentJob with
  | none => simp
  | some j => by_cases hj : j.status = Status.processing <;> simp [hj]

lemma processQueue_finished (s : ManagerState) :
    (processQueue s).finished = s.finished := by
  unfold processQueue
  cases s.currentJob with
  | some j => rfl
  | none => cases s.queue <;> rfl

lemma applyExit_of_not_processing {j : EncodeJob} (code : Int)
    (h : j.status ≠ .processing) : applyExit j code = j := by
  simp [applyExit, h]

/-- Claim C1: across every sequence of queue operations at most one job
record has status `processing`; the scheduler is a no-op while a job is
running; the job it starts is always the head of the pending list; and
after three sequential admissions the started job is the first admitted,
with the other two pending in admission order. -/
theorem queue_single_processing_and_fifo :
    (∀ ops : List QOp, processingCount (run initState ops) ≤ 1)
    ∧ (∀ s : ManagerState, s.currentJob.isSome = true → processQueue s = s)
    ∧ (∀ (s : ManagerState) (j : EncodeJob) (rest : List EncodeJob),
        s.currentJob = none → s.queue = j :: rest →
        processQueue s
          = { queue := rest
              currentJob := some { j with status := Status.processing }
              finished := s.finished })
    ∧ (∀ (t1 t2 t3 : Nat) (fp1 fp2 fp3 : String) (a1 a2 a3 : List Int),
        (run initState
            [QOp.add t1 fp1 a1, QOp.add t2 fp2 a2, QOp.add t3 fp3 a3]).currentJob
          = some { mkJob t1 fp1 a1 with status := Status.processing }
        ∧ (run initState
            [QOp.add t1 fp1 a1, QOp.add t2 fp2 a2, QOp.add t3 fp3 a3]).queue
          = [mkJob t2 fp2 a2, mkJob t3 fp3 a3]) := by
  refine ⟨?_, ?_, ?_, ?_⟩
  · intro ops
    exact processingCount_le_one (inv_run inv_initState ops)
  · intro s h
    unfold processQueue
    cases hc : s.currentJob with
    | some j => rfl
    | none => rw [hc] at h; simp at h
  · intro s j rest hc hq
    unfold processQueue
    rw [hc, hq]
  · intro t1 t2 t3 fp1 fp2 fp3 a1 a2 a3
    exact ⟨rfl, rfl⟩

/-- Claim C1 witness: the scheduler really is a no-op on a concrete
occupied state, and really dequeues the head of a concrete pending
list. -/
theorem queue_single_processing_and_fifo_witness :
    (ManagerState.mk [] (some { mkJob 5 "/media/a.mkv" [1] with status := Status.processing })
        []).currentJob.isSome = true
    ∧ processQueue
        (ManagerState.mk []
          (some { mkJob 5 "/media/a.mkv" [1] with status := Status.processing }) [])
      = ManagerState.mk []
          (some { mkJob 5 "/media/a.mkv" [1] with status := Status.processing }) []
    ∧ processQueue (ManagerState.mk [mkJob 7 "/media/b.mkv" [2]] none [])
      = { queue := []
          currentJob := some { mkJob 7 "/media/b.mkv" [2] with status := Status.processing }
          finished := [] } :=
  ⟨rfl,
   queue_single_processing_and_fifo.2.1 _ rfl,
   queue_single_processing_and_fifo.2.2.1 _ _ _ rfl rfl⟩

/-- Claim C2: when the process-exit handler fires for a job whose status
was already forced to `cancelled`, it leaves the record untouched: the
released record is the cancelled job itself, never `completed` or
`failed`. -/
theorem cancelled_job_absorbing_on_close :
    ∀ (s : ManagerState) (j : EncodeJob) (code : Int),
      s.currentJob = some j → j.status = Status.cancelled →
      applyExit j code = j
        ∧ (closeHandler s code).finished.head? = some j
        ∧ (closeHandler s code).finished.head?.map EncodeJob.status
          = some Status.cancelled := by
  intro s j code hc hst
  have hne : j.status ≠ Status.processing := by rw [hst]; intro h; cases h
  have hexit : applyExit j code = j := applyExit_of_not_processing code hne
  have hfin : (closeHandler s code).finished = j :: s.finished := by
    unfold closeHandler
    rw [hc, processQueue_finished, hexit]
  refine ⟨hexit, ?_, ?_⟩
  · rw [hfin]; rfl
  · rw [hfin]; simp [hst]

/-- Claim C2 witness: a concrete cancelled running job survives a close
event with exit code 0 unchanged. -/
theorem cancelled_job_absorbing_on_close_witness :
    (ManagerState.mk []
        (some { mkJob 5 "/media/a.mkv" [1] with status := Status.cancelled })
        []).currentJob
      = some { mkJob 5 "/media/a.mkv" [1] with status := Status.cancelled }
    ∧ (closeHandler
        (ManagerState.mk []
          (some { mkJob 5 "/media/a.mkv" [1] with status := Status.cancelled }) [])
        0).finished.head?
      = some { mkJob 5 "/media/a.mkv" [1] with status := Status.cancelled } :=
  ⟨rfl, (cancelled_job_absorbing_on_close _ _ 0 rfl rfl).2.1⟩

/-- Claim C3: when the process exits while the job is still
`processing`, exit code 0 completes it with progress forced to 100, any
non-zero code fails it with a non-empty error message containing the
exit code, and in every case the slot is cleared and the scheduler is
re-run, so the head of the pending queue (if any) starts immediately. -/
theorem close_handler_outcomes :
    ∀ (s : ManagerState) (j : EncodeJob) (code : Int),
      s.currentJob = some j → j.status = Status.processing →
      (code = 0 →
        (closeHandler s code).finished.head?
          = some { j with status := Status.completed, progress := 100 })
      ∧ (code ≠ 0 →
          (closeHandler s code).finished.head?
            = some { j with status := Status.failed
                            error := some (exitErrorMessage code) }
          ∧ exitErrorMessage code ≠ ""
          ∧ ∃ pre post, exitErrorMessage code = pre ++ toString code ++ post)
      ∧ (∀ (k : EncodeJob) (rest : List EncodeJob), s.queue = k :: rest →
          (closeHandler s code).currentJob
            = some { k with status := Status.processing }
          ∧ (closeHandler s code).queue = rest)
      ∧ (s.queue = [] →
          (closeHandler s code).currentJob = none
          ∧ (closeHandler s code).queue = []) := by
  intro s j code hc hst
  have hfin : (closeHandler s code).finished = applyExit j code :: s.finished := by
    unfold closeHandler
    rw [hc, processQueue_finished]
  refine ⟨?_, ?_, ?_, ?_⟩
  · intro h0
    rw [hfin]
    simp [applyExit, hst, h0]
  · intro hne
    refine ⟨?_, ?_, "ffmpeg exited with code ", ". See logs for details.", rfl⟩
    · rw [hfin]
      simp [applyExit, hst, hne]
    · intro h
      have h2 := congrArg String.length h
      unfold exitErrorMessage at h2
      rw [String.length_append, String.length_append] at h2
      have h3 : ("ffmpeg exited with code " : String).length = 24 := rfl
      have h4 : (". See logs for details." : String).length = 23 := rfl
      have h5 : ("" : String).length = 0 := rfl
      omega
  · intro k rest hq
    unfold closeHandler
    rw [hc]
    unfold processQueue
    rw [hq]
    exact ⟨rfl, rfl⟩
  · intro hq
    unfold closeHandler
    rw [hc]
    unfold processQueue
    rw [hq]
    exact ⟨rfl, rfl⟩

/-- Claim C3 witness: a concrete processing job with exit code 1 is
released as `failed` with the code in the message, and the concrete
pending job behind it starts at once. -/
theorem close_handler_outcomes_witness :
    ((1 : Int) ≠ 0)
    ∧ (closeHandler
        (ManagerState.mk [mkJob 9 "/media/b.mkv" [2]]
          (some { mkJob 5 "/media/a.mkv" [1] with status := Status.processing }) [])
        1).finished.head?
      = some { mkJob 5 "/media/a.mkv" [1] with
                 status := Status.failed, error := some (exitErrorMessage 1) }
    ∧ (closeHandler
        (ManagerState.mk [mkJob 9 "/media/b.mkv" [2]]
          (some { mkJob 5 "/media/a.mkv" [1] with status := Status.processing }) [])
        1).currentJob
      = some { mkJob 9 "/media/b.mkv" [2] with status := Status.processing } :=
  ⟨by decide,
   ((close_handler_outcomes _
      { mkJob 5 "/media/a.mkv" [1] with status := Status.processing } 1
      rfl rfl).2.1 (by decide)).1,
   ((close_handler_outcomes _
      { mkJob 5 "/media/a.mkv" [1] with status := Status.processing } 1
      rfl rfl).2.2.1 _ _ rfl).1⟩

/-- Claim C8 (code bug): `addJob` assigns `id := Date.now().toString()`,
so two distinct jobs admitted during the same millisecond receive the
same id, violating uniqueness. -/
theorem same_millisecond_admissions_share_id :
    (run initState
        [QOp.add 1700000000000 "/media/a.mkv" [1],
         QOp.add 1700000000000 "/media/b.mkv" [1]]).currentJob.map EncodeJob.id
      = some "1700000000000"
    ∧ (run initState
        [QOp.add 1700000000000 "/media/a.mkv" [1],
         QOp.add 1700000000000 "/media/b.mkv" [1]]).queue.map EncodeJob.id
      = ["1700000000000"]
    ∧ mkJob 1700000000000 "/media/a.mkv" [1] ≠ mkJob 1700000000000 "/media/b.mkv" [1] := by
  refine ⟨?_, ?_, ?_⟩ <;> decide

/-! ## Progress estimation (stderr data handler)

The handler keeps two mutable variables per spawned process:
`totalDuration` (seconds, 0 until the `Duration:` marker is seen) and the
job's `progress`.  The patterns
`/Duration: (\d{2}):(\d{2}):(\d{2})\.(\d{2})/` and
`/time=(\d{2}):(\d{2}):(\d{2})\.(\d{2})/` are embedded as character-level
scanners with the same leftmost-match semantics as `String.match` without
the `g` flag. -/

/-- `parseInt` of a two-digit capture group. -/
def digitPair (a b : Char) : Nat :=
  (a.toNat - 48) * 10 + (b.toNat - 48)

/-- Match `(\d{2}):(\d{2}):(\d{2})\.(\d{2})` at the head of the input,
returning the four numeric groups (hours, minutes, seconds,
hundredths). -/
def matchClockAt : List Char → Option (Nat × Nat × Nat × Nat)
  | h1 :: h2 :: ':' :: m1 :: m2 :: ':' :: s1 :: s2 :: '.' :: f1 :: f2 :: _ =>
      if h1.isDigit && h2.isDigit && m1.isDigit && m2.isDigit
          && s1.isDigit && s2.isDigit && f1.isDigit && f2.isDigit then
        some (digitPair h1 h2, digitPair m1 m2, digitPair s1 s2, digitPair f1 f2)
      else none
  | _ => none

/-- Leftmost match of `Duration: ` followed by a clock pattern. -/
def findDurationMatch : List Char → Option (Nat × Nat × Nat × Nat)
  | [] => none
  | c :: cs =>
      match
        (if ("Duration: ".toList).isPrefixOf (c :: cs) then
          matchClockAt ((c :: cs).drop 10)
        else none) with
      | some r => some r
      | none => findDurationMatch cs

/-- Leftmost match of `time=` followed by a clock pattern. -/
def findTimeMatch : List Char → Option (Nat × Nat × Nat × Nat)
  | [] => none
  | c :: cs =>
      match
        (if ("time=".toList).isPrefixOf (c :: cs) then
          matchClockAt ((c :: cs).drop 5)
        else none) with
      | some r => some r
      | none => findTimeMatch cs

/-- The conversion the handler applies to a clock match:
`parseInt(m[1]) * 3600 + parseInt(m[2]) * 60 + parseInt(m[3])` — the
hundredths group is matched but never read. -/
def clockToSeconds : Nat × Nat × Nat × Nat → Nat
  | (h, m, s, _) => h * 3600 + m * 60 + s

/-- `Math.round (num / den)` for non-negative integer `num` and positive
integer `den` (round half away from zero, here half up). -/
def jsRound (num den : Nat) : Nat :=
  (2 * num + den) / (2 * den)

/-- The per-process mutable variables the stderr handler reads and
writes: `totalDuration` and the job's `progress` field. -/
structure ProgressState where
  totalDuration : Nat
  progress : Nat
deriving DecidableEq, Repr

def initProgress : ProgressState := { totalDuration := 0, progress := 0 }

/-- One invocation of the `stderr.on('data')` handler on a chunk: parse
the duration marker while `totalDuration` is still 0; on a time marker,
and only when `totalDuration > 0`, compute
`min(100, round((currentTime / totalDuration) * 100))` and store it when
it differs from the stored progress.  The boolean reports whether a
`queueUpdate` snapshot was emitted. -/
def stderrDataHandler (st : ProgressState) (chunk : String) : ProgressState × Bool :=
  let total :=
    if st.totalDuration = 0 then
      match findDurationMatch chunk.toList with
      | some clock => clockToSeconds clock
      | none => 0
    else st.totalDuration
  match findTimeMatch chunk.toList with
  | some clock =>
      if 0 < total then
        let currentTime := clockToSeconds clock
        let progress := min 100 (jsRound (currentTime * 100) total)
        if st.progress ≠ progress then
          ({ totalDuration := total, progress := progress }, true)
        else
          ({ totalDuration := total, progress := st.progress }, false)
      else ({ totalDuration := total, progress := st.progress }, false)
  | none => ({ totalDuration := total, progress := st.progress }, false)

/-- A whole sequence of stderr chunks fed to the handler in order. -/
def runStderr (st : ProgressState) (chunks : List String) : ProgressState :=
  chunks.foldl (fun s c => (stderrDataHandler s c).1) st

lemma stderrDataHandler_time {st : ProgressState} {chunk : String}
    {clock : Nat × Nat × Nat × Nat}
    (ht : 0 < st.totalDuration) (hk : findTimeMatch chunk.toList = some clock) :
    (stderrDataHandler st chunk).1
      = { totalDuration := st.totalDuration
          progress := min 100 (jsRound (clockToSeconds clock * 100) st.totalDuration) }
    ∧ ((stderrDataHandler st chunk).2 = true ↔
        st.progress ≠ min 100 (jsRound (clockToSeconds clock * 100) st.totalDuration)) := by
  have hne : ¬ st.totalDuration = 0 := Nat.pos_iff_ne_zero.mp ht
  unfold stderrDataHandler
  rw [if_neg hne, hk]
  simp only
  rw [if_pos ht]
  by_cases hp : st.progress = min 100 (jsRound (clockToSeconds clock * 100) st.totalDuration)
  · rw [if_neg (by simpa using hp)]
    exact ⟨by simp [hp], by simp [hp]⟩
  · rw [if_pos (by simpa using hp)]
    exact ⟨rfl, by simpa using hp⟩

lemma jsRound_le_of_le {n n' d : Nat} (h : n ≤ n') :
    jsRound n d ≤ jsRound n' d :=
  Nat.div_le_div_right (by omega)

/-- Claim C6: once the total duration has been parsed (`total > 0`), a
time marker sets progress to `min 100 (round (100 * elapsed / total))`
with both clocks converted to seconds, a snapshot is emitted exactly
when that value differs from the stored progress, and on the concrete
lines `Duration: 01:00:00.00` then `time=00:30:00.00` the computed
progress is 50. -/
theorem progress_formula_and_snapshot :
    (∀ (st : ProgressState) (chunk : String) (clock : Nat × Nat × Nat × Nat),
      0 < st.totalDuration → findTimeMatch chunk.toList = some clock →
      (stderrDataHandler st chunk).1.progress
        = min 100 (jsRound (clockToSeconds clock * 100) st.totalDuration)
      ∧ ((stderrDataHandler st chunk).2 = true ↔
          st.progress
            ≠ min 100 (jsRound (clockToSeconds clock * 100) st.totalDuration)))
    ∧ (runStderr initProgress
        ["  Duration: 01:00:00.00, start: 0.000000, bitrate: 1000 kb/s",
         "frame= 100 fps= 25 time=00:30:00.00 bitrate=1000.0kbits/s"]).progress
      = 50 := by
  constructor
  · intro st chunk clock ht hk
    obtain ⟨h1, h2⟩ := stderrDataHandler_time ht hk
    exact ⟨by rw [h1], h2⟩
  · decide

/-- Claim C6 witness: the general formula applied at a concrete state
and chunk (total duration one hour, time marker at 30 minutes). -/
theorem progress_formula_and_snapshot_witness :
    (0 < (ProgressState.mk 3600 0).totalDuration)
    ∧ findTimeMatch ("time=00:30:00.00 bitrate=1000.0kbits/s").toList
        = some (0, 30, 0, 0)
    ∧ (stderrDataHandler (ProgressState.mk 3600 0)
        "time=00:30:00.00 bitrate=1000.0kbits/s").1.progress
      = min 100 (jsRound (clockToSeconds (0, 30, 0, 0) * 100) 3600) :=
  ⟨by decide, by decide,
   (progress_formula_and_snapshot.1 (ProgressState.mk 3600 0)
      "time=00:30:00.00 bitrate=1000.0kbits/s" (0, 30, 0, 0)
      (by decide) (by decide)).1⟩

/-- Claim C10: a time marker arriving while `totalDuration` is still 0
(and the chunk carries no duration marker) leaves the handler state
unchanged and emits no snapshot: the division by the total only ever
happens under the guard `totalDuration > 0`. -/
theorem no_progress_before_duration :
    ∀ (st : ProgressState) (chunk : String),
      st.totalDuration = 0 → findDurationMatch chunk.toList = none →
      stderrDataHandler st chunk = (st, false) := by
  intro st chunk h0 hd
  cases st with
  | mk t p =>
      simp only at h0
      subst h0
      cases htm : findTimeMatch chunk.toList with
      | none =>
          simp [stderrDataHandler, show findDurationMatch chunk.data = none from hd,
            show findTimeMatch chunk.data = none from htm]
      | some clock =>
          simp [stderrDataHandler, show findDurationMatch chunk.data = none from hd,
            show findTimeMatch chunk.data = some clock from htm]

/-- Claim C10 witness: a concrete chunk carrying only a time marker,
processed from the initial state, changes nothing and publishes
nothing. -/
theorem no_progress_before_duration_witness :
    initProgress.totalDuration = 0
    ∧ findDurationMatch ("frame= 100 fps= 25 time=00:30:00.00").toList = none
    ∧ findTimeMatch ("frame= 100 fps= 25 time=00:30:00.00").toList = some (0, 30, 0, 0)
    ∧ stderrDataHandler initProgress "frame= 100 fps= 25 time=00:30:00.00"
        = (initProgress, false) :=
  ⟨rfl, by decide, by decide,
   no_progress_before_duration initProgress _ rfl (by decide)⟩

/-- Claim C7 counterexample: a diagnostic stream whose second time
marker reports a smaller elapsed time makes the stored progress
decrease from 50 to 10 — the parser does not enforce monotonicity. -/
theorem progress_not_monotonic_counterexample :
    (runStderr initProgress
        ["  Duration: 01:00:00.00, start: 0.000000",
         "frame= 100 time=00:30:00.00"]).progress = 50
    ∧ (runStderr initProgress
        ["  Duration: 01:00:00.00, start: 0.000000",
         "frame= 100 time=00:30:00.00",
         "frame= 110 time=00:06:00.00"]).progress = 10 := by
  constructor <;> decide

lemma stderrDataHandler_progress_le (st : ProgressState) (c : String)
    (h : st.progress ≤ 100) : ((stderrDataHandler st c).1).progress ≤ 100 := by
  unfold stderrDataHandler
  cases htm : findTimeMatch c.toList with
  | none => simpa using h
  | some clock =>
      simp only [htm]
      split <;> split <;> (try split) <;> first | exact h | simp

/-- Claim C7 (amended): the stored progress always stays within 0–100,
and it is monotone non-decreasing provided the parsed elapsed-time
values are non-decreasing — two successive time markers with
`elapsed₁ ≤ elapsed₂` can only move progress up. -/
theorem progress_bounded_and_conditionally_monotonic :
    (∀ (st : ProgressState) (chunks : List String),
      st.progress ≤ 100 → (runStderr st chunks).progress ≤ 100)
    ∧ (∀ (st : ProgressState) (c1 c2 : String)
        (k1 k2 : Nat × Nat × Nat × Nat),
        0 < st.totalDuration →
        findTimeMatch c1.toList = some k1 →
        findTimeMatch c2.toList = some k2 →
        clockToSeconds k1 ≤ clockToSeconds k2 →
        (stderrDataHandler st c1).1.progress
          ≤ (stderrDataHandler (stderrDataHandler st c1).1 c2).1.progress) := by
  constructor
  · intro st chunks
    induction chunks generalizing st with
    | nil => exact fun h => h
    | cons c rest ih =>
        intro h
        rw [show runStderr st (c :: rest)
              = runStderr (stderrDataHandler st c).1 rest from rfl]
        exact ih _ (stderrDataHandler_progress_le st c h)
  · intro st c1 c2 k1 k2 ht h1 h2 hle
    obtain ⟨e1, _⟩ := stderrDataHandler_time ht h1
    have ht' : 0 < ((stderrDataHandler st c1).1).totalDuration := by
      rw [e1]; exact ht
    obtain ⟨e2, _⟩ := stderrDataHandler_time ht' h2
    rw [e2, e1]
    simp only
    exact min_le_min (le_refl 100)
      (jsRound_le_of_le (Nat.mul_le_mul_right 100 hle))

/-- Claim C7 witness: concrete non-decreasing time markers (30 then 45
minutes of a one-hour encode) move progress from 50 up to 75. -/
theorem progress_bounded_and_conditionally_monotonic_witness :
    (0 < (ProgressState.mk 3600 0).totalDuration)
    ∧ (stderrDataHandler (ProgressState.mk 3600 0) "time=00:30:00.00").1.progress
        ≤ (stderrDataHandler
            (stderrDataHandler (ProgressState.mk 3600 0) "time=00:30:00.00").1
            "time=00:45:00.00").1.progress :=
  ⟨by decide,
   progress_bounded_and_conditionally_monotonic.2 (ProgressState.mk 3600 0)
     "time=00:30:00.00" "time=00:45:00.00" (0, 30, 0, 0) (0, 45, 0, 0)
     (by decide) (by decide) (by decide) (by decide)⟩

/-! ## Crop detection (`detectCrop` in `routes/api.ts`)

`detectCrop` samples three timestamps; each sample spawns a probe whose
stderr is matched against `/crop=\d+:\d+:\d+:\d+/g` on close (the last
match wins, no match means `No crop detected`), while a spawn-level
`'error'` event rejects the sample's promise — and, since the samples are
awaited in a sequential loop, the whole detection.  The `g`-flag scan is
embedded by testing the pattern at every position: a match's interior
consists of `crop=` followed only by digits and colons, so no new match
can begin strictly inside a previous one and per-position scanning yields
exactly the non-overlapping global matches. -/

/-- Greedy match of `\d+` at the head of the input: the maximal
non-empty digit prefix and the rest. -/
def matchDigits1 (cs : List Char) : Option (List Char × List Char) :=
  match cs.takeWhile Char.isDigit with
  | [] => none
  | ds => some (ds, cs.drop ds.length)

/-- Match `\d+:\d+:\d+:\d+` at the head of the input, returning the
matched text. -/
def matchCropNums (cs : List Char) : Option (List Char) :=
  match matchDigits1 cs with
  | none => none
  | some (a, r1) =>
      match r1 with
      | ':' :: r1' =>
          match matchDigits1 r1' with
          | none => none
          | some (b, r2) =>
              match r2 with
              | ':' :: r2' =>
                  match matchDigits1 r2' with
                  | none => none
                  | some (c, r3) =>
                      match r3 with
                      | ':' :: r3' =>
                          match matchDigits1 r3' with
                          | none => none
                          | some (d, _) =>
                              some (a ++ ':' :: b ++ ':' :: c ++ ':' :: d)
                      | _ => none
              | _ => none
      | _ => none

/-- All matches of `/crop=\d+:\d+:\d+:\d+/g` in the input, in order. -/
def cropMatches : List Char → List String
  | [] => []
  | c :: rest =>
      match
        (if ("crop=".toList).isPrefixOf (c :: rest) then
          matchCropNums (rest.drop 4)
        else none) with
      | some t => ("crop=" ++ String.mk t) :: cropMatches rest
      | none => cropMatches rest

/-- The close handler of one probe: resolve with the last global match,
or with `No crop detected` when there is none.  The exit code is not
consulted. -/
def sampleCrop (stderrOut : String) : String :=
  match (cropMatches stderrOut.toList).getLast? with
  | some m => m
  | none => "No crop detected"

/-- Outcome of one probe spawn: either the process emitted a spawn-level
`'error'` event (rejecting the sample's promise), or it closed with the
given accumulated stderr text. -/
inductive ProbeOutcome where
  | spawnError
  | closed (stderrOut : String)

/-- The sequential `for … await` loop over the three samples: the first
rejected promise aborts the whole loop; otherwise every sample
contributes its resolved crop string. -/
def collectCropSamples : List ProbeOutcome → Except Unit (List String)
  | [] => .ok []
  | .spawnError :: _ => .error ()
  | .closed out :: rest =>
      match collectCropSamples rest with
      | .error e => .error e
      | .ok others => .ok (sampleCrop out :: others)

/-- `cropCounts[k]`: occurrences of `k` among the sample results. -/
def countOcc (xs : List String) (k : String) : Nat :=
  (xs.filter (fun c => c == k)).length

/-- `Object.keys(cropCounts)`: the distinct sample values in first-seen
order (string keys of a JS object preserve insertion order). -/
def objectKeys (xs : List String) : List String :=
  xs.foldl (fun keys crop => if keys.contains crop then keys else keys ++ [crop]) []

/-- The majority vote over the sample results:
`Object.keys(cropCounts).reduce((a, b) => cropCounts[a] > cropCounts[b] ? a : b)`
followed by the final `No crop detected` fallback.  (`reduce` with no
initial value needs a non-empty key list; `detectCrop` always supplies
three samples.) -/
def mostFrequentCropOf (samples : List String) : String :=
  match objectKeys samples with
  | [] => "No crop detected"
  | k :: ks =>
      let mostFrequentCrop :=
        ks.foldl (fun a b => if countOcc samples a > countOcc samples b then a else b) k
      if mostFrequentCrop ≠ "No crop detected" then mostFrequentCrop
      else "No crop detected"

/-- Whole `detectCrop`: await the three samples sequentially, then vote. -/
def detectCrop (probes : List ProbeOutcome) : Except Unit String :=
  match collectCropSamples probes with
  | .error e => .error e
  | .ok samples => .ok (mostFrequentCropOf samples)

lemma crop_vote_final_if (a : String) :
    (if a ≠ "No crop detected" then a else "No crop detected") = a := by
  by_cases h : a = "No crop detected" <;> simp [h]

lemma crop_vote_fallback (a : String) :
    (if a = "No crop detected" then "No crop detected" else a) = a := by
  by_cases h : a = "No crop detected" <;> simp [h]

lemma collectCropSamples_closed (outs : List String) :
    collectCropSamples (outs.map ProbeOutcome.closed)
      = Except.ok (outs.map sampleCrop) := by
  induction outs with
  | nil => rfl
  | cons o rest ih => simp [collectCropSamples, ih]

/-- Claim C4 counterexample: three pairwise distinct crop samples — the
claim says the tie is broken by first-seen order (the first-observed
sample's value), but `reduce((a, b) => counts[a] > counts[b] ? a : b)`
keeps `b` on every tie, so the LAST distinct value is returned. -/
theorem crop_tie_returns_last_counterexample :
    detectCrop
        [ProbeOutcome.closed " crop=1440:1080:240:0 ",
         ProbeOutcome.closed " crop=1920:800:0:140 ",
         ProbeOutcome.closed " crop=1920:1072:0:4 "]
      = Except.ok "crop=1920:1072:0:4"
    ∧ ("crop=1920:1072:0:4" : String) ≠ "crop=1440:1080:240:0" := by
  exact ⟨rfl, by decide⟩

/-- Claim C4 (amended): the vote over the three sample strings returns
any value occurring at least twice (the majority value); three
all-agreeing `No crop detected` samples yield `No crop detected`; and
when all three samples are pairwise distinct the tie is broken in favor
of the LAST-observed sample's value. -/
theorem crop_majority_vote :
    (∀ x y z : String, x = y → mostFrequentCropOf [x, y, z] = x)
    ∧ (∀ x y z : String, x = z → mostFrequentCropOf [x, y, z] = x)
    ∧ (∀ x y z : String, y = z → mostFrequentCropOf [x, y, z] = y)
    ∧ mostFrequentCropOf
        ["No crop detected", "No crop detected", "No crop detected"]
      = "No crop detected"
    ∧ (∀ x y z : String, x ≠ y → x ≠ z → y ≠ z →
        mostFrequentCropOf [x, y, z] = z) := by
  refine ⟨?_, ?_, ?_, by decide, ?_⟩
  · intro x y z h
    subst h
    by_cases hz : z = x
    · subst hz
      simp [mostFrequentCropOf, objectKeys, countOcc, List.contains, List.elem,
        crop_vote_final_if, crop_vote_fallback]
    · have hz' : ¬x = z := fun h => hz h.symm
      simp [mostFrequentCropOf, objectKeys, countOcc, List.contains, List.elem,
        hz, hz', crop_vote_final_if, crop_vote_fallback]
  · intro x y z h
    subst h
    by_cases hy : y = x
    · subst hy
      simp [mostFrequentCropOf, objectKeys, countOcc, List.contains, List.elem,
        crop_vote_final_if, crop_vote_fallback]
    · have hy' : ¬x = y := fun h => hy h.symm
      simp [mostFrequentCropOf, objectKeys, countOcc, List.contains, List.elem,
        hy, hy', crop_vote_final_if, crop_vote_fallback]
  · intro x y z h
    subst h
    by_cases hy : y = x
    · subst hy
      simp [mostFrequentCropOf, objectKeys, countOcc, List.contains, List.elem,
        crop_vote_final_if, crop_vote_fallback]
    · have hy' : ¬x = y := fun h => hy h.symm
      simp [mostFrequentCropOf, objectKeys, countOcc, List.contains, List.elem,
        hy, hy', crop_vote_final_if, crop_vote_fallback]
  · intro x y z hxy hxz hyz
    have h1 : ¬y = x := fun h => hxy h.symm
    have h2 : ¬z = x := fun h => hxz h.symm
    have h3 : ¬z = y := fun h => hyz h.symm
    simp [mostFrequentCropOf, objectKeys, countOcc, List.contains, List.elem,
      hxy, hxz, hyz, h1, h2, h3, crop_vote_final_if, crop_vote_fallback]

/-- Claim C4 witness: two agreeing samples beat a third, concretely. -/
theorem crop_majority_vote_witness :
    ("crop=100:100:0:0" : String) = "crop=100:100:0:0"
    ∧ mostFrequentCropOf
        ["crop=100:100:0:0", "crop=100:100:0:0", "No crop detected"]
      = "crop=100:100:0:0" :=
  ⟨rfl,
   crop_majority_vote.1 "crop=100:100:0:0" "crop=100:100:0:0" "No crop detected" rfl⟩

/-- Claim C9 counterexample: a spawn-level error on a single sample
rejects the awaited promise inside the sequential loop and fails the
whole detection, even though the other two samples agree on a crop. -/
theorem spawn_error_fails_detection_counterexample :
    detectCrop
        [ProbeOutcome.spawnError,
         ProbeOutcome.closed " crop=100:100:0:0 ",
         ProbeOutcome.closed " crop=100:100:0:0 "]
      = Except.error () := rfl

/-- Claim C9 (amended): a sample whose probe process closes is never a
detection failure, whatever its output or exit status: the close path
always resolves, a sample with no crop match in its stderr counts as
`No crop detected`, and the remaining samples still take part in the
vote.  Only a spawn-level `'error'` event fails the whole detection. -/
theorem closed_samples_never_fail_detection :
    (∀ outs : List String,
        detectCrop (outs.map ProbeOutcome.closed)
          = Except.ok (mostFrequentCropOf (outs.map sampleCrop)))
    ∧ (∀ out : String, cropMatches out.toList = [] →
        sampleCrop out = "No crop detected")
    ∧ detectCrop
        [ProbeOutcome.closed "no crop lines here",
         ProbeOutcome.closed " crop=100:100:0:0 ",
         ProbeOutcome.closed " crop=100:100:0:0 "]
      = Except.ok "crop=100:100:0:0" := by
  refine ⟨?_, ?_, rfl⟩
  · intro outs
    simp [detectCrop, collectCropSamples_closed]
  · intro out h
    simp [sampleCrop, show cropMatches out.data = [] from h]

/-- Claim C9 witness: a concrete matchless stderr transcript resolves
to `No crop detected` instead of failing. -/
theorem closed_samples_never_fail_detection_witness :
    cropMatches ("frame=  1 fps=0.0 q=0.0").toList = []
    ∧ sampleCrop "frame=  1 fps=0.0 q=0.0" = "No crop detected" :=
  ⟨by decide,
   closed_samples_never_fail_detection.2.1 "frame=  1 fps=0.0 q=0.0" (by decide)⟩

/-! ## Admission route (`router.post('/encode')` in `routes/api.ts`)

The handler destructures `filePath` and `audioStreams` from the request
body and guards with `if (!filePath || !audioStreams)`.  JavaScript
truthiness is embedded field by field: an absent (`undefined`/`null`)
field and the empty string are falsy, while an array object of any
length — including `[]` — is truthy. -/

/-- Request-body fields the admission guard and `addJob` consult. -/
structure EncodeRequestBody where
  filePath : Option String
  audioStreams : Option (List Int)
deriving DecidableEq, Repr

/-- `!filePath` negated: a string field is truthy iff present and
non-empty. -/
def jsTruthyString : Option String → Bool
  | none => false
  | some s => s != ""

/-- `!audioStreams` negated: an array-valued field is truthy iff
present — JavaScript arrays are objects, so `[]` is truthy. -/
def jsTruthyArray : Option (List Int) → Bool
  | none => false
  | some _ => true

/-- The two responses the route can produce: `400` with the validation
message, or `202` with the created job. -/
inductive EncodeResponse where
  | badRequest (message : String)
  | accepted (job : EncodeJob)
deriving DecidableEq, Repr

/-- The `/encode` handler: reject when `!filePath || !audioStreams`,
otherwise admit via `encodeManager.addJob` (which appends the job and
triggers the scheduler) and answer 202 with the created job; `t` is the
`Date.now()` reading at admission. -/
def encodeRoute (body : EncodeRequestBody) (s : ManagerState) (t : Nat) :
    EncodeResponse × ManagerState :=
  if !(jsTruthyString body.filePath) || !(jsTruthyArray body.audioStreams) then
    (.badRequest "filePath and audioStreams are required.", s)
  else
    let r := addJob s t (body.filePath.getD "") (body.audioStreams.getD [])
    (.accepted r.1, r.2)

/-- Claim C5 (code bug): a request with a present but EMPTY
audio-stream list passes the `!audioStreams` truthiness guard (an empty
array is truthy in JavaScript), so instead of a synchronous validation
error a job with no audio streams is created, admitted and immediately
started — the queue state changes. -/
theorem empty_audio_streams_admitted :
    encodeRoute
        { filePath := some "/media/a.mkv", audioStreams := some [] }
        initState 1700000000000
      = (EncodeResponse.accepted (mkJob 1700000000000 "/media/a.mkv" []),
         { queue := []
           currentJob := some
             { mkJob 1700000000000 "/media/a.mkv" [] with status := Status.processing }
           finished := [] })
    ∧ (mkJob 1700000000000 "/media/a.mkv" []).audioStreams = []
    ∧ (encodeRoute
        { filePath := some "/media/a.mkv", audioStreams := some [] }
        initState 1700000000000).2
      ≠ initState := by
  refine ⟨rfl, rfl, ?_⟩
  decide

end VideoBlapper
